import Mathlib

/-!
Verification of the mcmanager control-plane engine against its specification.

The definitions below are a shallow embedding of the TypeScript sources:

* `AgentsService` embeds `src/backend/src/agents/agents.service.ts`
  (process supervisor: log ring, pattern-based status detection, command
  injection, stop sequence, exit handling).
* `ServersService` embeds `src/backend/src/servers/servers.service.ts`
  (registry status mirror `updateStatus`, `validatePath` and the
  path-scoped file operations).
* `ModpacksService` embeds the modpack provisioning service
  (`findAvailablePort`, `downloadMods`, the session terminal events).
* `ServersGateway` embeds the console WebSocket gateway
  (`handleSubscribe`).

JavaScript strings are modelled as Lean `String` (or `List Char` where the
proofs walk the characters), `Map` objects as association lists, the child
process table as an association list of entries carrying the `killed` flag,
and wall-clock timestamps as opaque `String` arguments supplied by the
caller.  Fallible operations return `Except String`.
-/

set_option maxHeartbeats 1000000

/-- Association-list lookup, modelling JavaScript `Map.get` (first match). -/
def lookupA {α : Type} : List (String × α) → String → Option α
  | [], _ => none
  | (k, v) :: rest, key => if k = key then some v else lookupA rest key

/-- Association-list update, modelling JavaScript `Map.set`: replace the
existing binding or append a new one. -/
def setA {α : Type} : List (String × α) → String → α → List (String × α)
  | [], key, v => [(key, v)]
  | (k, w) :: rest, key, v =>
    if k = key then (key, v) :: rest else (k, w) :: setA rest key v

theorem lookupA_setA_self {α : Type} (m : List (String × α)) (k : String) (v : α) :
    lookupA (setA m k v) k = some v := by
  induction m with
  | nil => simp [setA, lookupA]
  | cons hd tl ih =>
    obtain ⟨k0, v0⟩ := hd
    by_cases h : k0 = k
    · simp [setA, lookupA, h]
    · simp [setA, lookupA, h, ih]

/-- Does `pre` occur at the start of `l`?  (List-of-characters form of
JavaScript `String.prototype.startsWith`.) -/
def hasPre : List Char → List Char → Bool
  | [], _ => true
  | _ :: _, [] => false
  | a :: as, b :: bs => a == b && hasPre as bs

/-- Does `needle` occur anywhere inside `hay`?  (List-of-characters form of
JavaScript `String.prototype.includes`.) -/
def hasSub (needle : List Char) : List Char → Bool
  | [] => hasPre needle []
  | c :: cs => hasPre needle (c :: cs) || hasSub needle cs

/-- String wrapper for `hasSub`, modelling `hay.includes(needle)`. -/
def containsSub (hay needle : String) : Bool :=
  hasSub needle.data hay.data

/-- ASCII lowercasing, modelling `String.prototype.toLowerCase` on the
ASCII log lines the supervisor matches against. -/
def toLowerStr (s : String) : String :=
  ⟨s.data.map Char.toLower⟩

/-- Boolean test for an `Except` success. -/
def isOkE {ε α : Type} : Except ε α → Bool
  | .ok _ => true
  | .error _ => false

namespace AgentsService

/-- `MAX_LOG_LINES` from `agents.service.ts`. -/
def MAX_LOG_LINES : Nat := 1000

/-- The per-server ring update of `addLog`: the stored line is the raw line
prefixed with the ISO timestamp, pushed at the end; when the buffer exceeds
`MAX_LOG_LINES` the oldest entry is shifted off the front. -/
def addLog (logs : List String) (now line : String) : List String :=
  let l := logs ++ ["[" ++ now ++ "] " ++ line]
  if MAX_LOG_LINES < l.length then l.drop 1 else l

/-- `getLogs`: the stored ring for a server, or `[]` when none exists. -/
def getLogs (logs : List (String × List String)) (sid : String) : List String :=
  (lookupA logs sid).getD []

/-- The ready pattern of `detectStatusFromLog`: the line contains `Done`
and also `For help` or `help`. -/
def doneRe (line : String) : Bool :=
  containsSub line "Done" && (containsSub line "For help" || containsSub line "help")

/-- The starting pattern of `detectStatusFromLog` (case-insensitive). -/
def startingRe (line : String) : Bool :=
  containsSub (toLowerStr line) "starting minecraft server" ||
    containsSub (toLowerStr line) "starting net.minecraft.server"

/-- The stopping pattern of `detectStatusFromLog`. -/
def stoppingRe (line : String) : Bool :=
  containsSub line "Stopping server" || containsSub line "Stopping the server" ||
    containsSub line "Saving worlds"

/-- The supervisor's status bookkeeping: the `currentStatus` map plus the
ordered list of `(serverId, status)` events handed to status callbacks. -/
structure StatusState where
  currentStatus : List (String × String)
  emitted : List (String × String)
deriving Repr, DecidableEq

/-- `emitStatus`: store the status in `currentStatus` and broadcast it. -/
def emitStatus (st : StatusState) (sid status : String) : StatusState :=
  { currentStatus := setA st.currentStatus sid status
    emitted := st.emitted ++ [(sid, status)] }

/-- `detectStatusFromLog`: pattern-match one ingested line and emit the
matching status, checking the ready pattern first, then starting, then
stopping.  The current status is not consulted. -/
def detectStatusFromLog (st : StatusState) (sid line : String) : StatusState :=
  if doneRe line then emitStatus st sid "RUNNING"
  else if startingRe line then emitStatus st sid "STARTING"
  else if stoppingRe line then emitStatus st sid "STOPPING"
  else st

/-- The `exit` handler of `startServer`: `code === 0 ? 'STOPPED' : 'EXITED'`,
where `none` models a `null` exit code (killed by signal). -/
def exitStatusOf (code : Option Int) : String :=
  if code = some 0 then "STOPPED" else "EXITED"

/-- Supervisor bookkeeping for one child process; `killed` mirrors the
`ChildProcess.killed` flag tested by `sendCommand`. -/
structure ProcEntry where
  killed : Bool
deriving Repr, DecidableEq

/-- The supervisor's mutable maps: `processes`, `logs`, `currentStatus`. -/
structure AgentsState where
  processes : List (String × ProcEntry)
  logs : List (String × List String)
  currentStatus : List (String × String)
deriving Repr, DecidableEq

/-- The service-level `addLog`: update the per-server ring inside the state. -/
def addLogS (st : AgentsState) (now sid line : String) : AgentsState :=
  { st with logs := setA st.logs sid (addLog (getLogs st.logs sid) now line) }

/-- `sendCommand`: throw `Server is not running` when no live (non-killed)
process entry exists; otherwise write `command + "\n"` to stdin and append
`"> " + command` to the ring.  Returns the updated state and the text
written to stdin. -/
def sendCommand (st : AgentsState) (now sid cmd : String) :
    Except String (AgentsState × String) :=
  match lookupA st.processes sid with
  | none => .error "Server is not running"
  | some p =>
    if p.killed then .error "Server is not running"
    else .ok (addLogS st now sid ("> " ++ cmd), cmd ++ "\n")

/-- One externally visible action of `stopServer`. -/
inductive StopAction where
  | writeStdin (text : String)
  | signal (name : String)
deriving Repr, DecidableEq

/-- The timed action trace of `stopServer` for a server whose process entry
exists (`procExists`) and whose child exits on its own after `exitMs`
milliseconds (`none` when it never exits): write `stop\n` immediately; if
the process has not exited when the 30 s timer fires, send `SIGTERM`.
Nothing else is ever sent. -/
def stopServer (procExists : Bool) (exitMs : Option Nat) : List (Nat × StopAction) :=
  if procExists then
    (0, .writeStdin "stop\n") ::
      (match exitMs with
       | some t => if t ≤ 30000 then [] else [(30000, .signal "SIGTERM")]
       | none => [(30000, .signal "SIGTERM")])
  else []

end AgentsService

namespace ServersService

/-- The `ServerStatus` enum of the registry (`common/enums`, mirrored inline
in `backups.controller.ts`); it has no `EXITED` member. -/
inductive ServerStatus where
  | STOPPED
  | STARTING
  | RUNNING
  | STOPPING
  | ERROR
deriving Repr, DecidableEq

/-- The `statusMap` lookup of `updateStatus`, with the `|| ServerStatus.ERROR`
fallback for unknown strings. -/
def mapStatus (status : String) : ServerStatus :=
  if status = "STOPPED" then .STOPPED
  else if status = "STARTING" then .STARTING
  else if status = "RUNNING" then .RUNNING
  else if status = "STOPPING" then .STOPPING
  else if status = "EXITED" then .ERROR
  else if status = "RESTARTING" then .STARTING
  else .ERROR

/-- The string value the enum member serializes to in the database row. -/
def serverStatusToString : ServerStatus → String
  | .STOPPED => "STOPPED"
  | .STARTING => "STARTING"
  | .RUNNING => "RUNNING"
  | .STOPPING => "STOPPING"
  | .ERROR => "ERROR"

/-- `updateStatus`: the status string stored on the server record for an
incoming supervisor status string. -/
def updateStatusStored (incoming : String) : String :=
  serverStatusToString (mapStatus incoming)

/-- Registry state after a supervised process exits with `code`: the
supervisor's exit handler publishes its status string, and the gateway's
status subscription mirrors it through `updateStatus`. -/
def registryAfterExit (code : Option Int) : String :=
  updateStatusStored (AgentsService.exitStatusOf code)

/-- The two-dot needle of the traversal check. -/
def dotdot : List Char := ['.', '.']

/-- The test of `validatePath`:
`requestedPath.includes('..') || requestedPath.startsWith('/')`. -/
def validatePathThrows (p : List Char) : Bool :=
  hasSub dotdot p ||
    (match p with
     | '/' :: _ => true
     | _ => false)

/-- `validatePath`: throw `Invalid path` on a traversal attempt. -/
def validatePath (p : List Char) : Except String Unit :=
  if validatePathThrows p then .error "Invalid path" else .ok ()

/-- Split a raw path on `/` into segments (the segment view used by
`path.join`/`path.normalize`). -/
def splitSegs : List Char → List (List Char)
  | [] => [[]]
  | c :: rest =>
    if c = '/' then [] :: splitSegs rest
    else
      match splitSegs rest with
      | [] => [[c]]
      | s :: ss => (c :: s) :: ss

/-- One normalization step of `path.normalize` over an absolute path:
empty and `.` segments disappear, `..` pops the previous segment (staying
at the root when there is none), anything else is kept. -/
def normStep (acc : List (List Char)) (s : List Char) : List (List Char) :=
  if s = [] ∨ s = ['.'] then acc
  else if s = dotdot then acc.dropLast
  else acc ++ [s]

/-- `path.join(root, p)` in canonical segment form, for a root given as an
already-canonical absolute segment list. -/
def joinSegs (root : List (List Char)) (p : List Char) : List (List Char) :=
  (root ++ splitSegs p).foldl normStep []

/-- A filesystem action issued by one of the file operations. -/
inductive FsAction where
  | readdir (p : List (List Char))
  | readFile (p : List (List Char))
  | mkdirRec (p : List (List Char))
  | writeFile (p : List (List Char)) (content : String)
  | unlink (p : List (List Char))
  | rmRec (p : List (List Char))
deriving Repr, DecidableEq

/-- The shared shape of every file operation: `validatePath` runs first and
its failure aborts the call before any filesystem action is issued. -/
def fileOperation (p : List Char) (acts : List FsAction) :
    Except String (List FsAction) :=
  match validatePath p with
  | .error e => .error e
  | .ok _ => .ok acts

/-- `listFiles`. -/
def listFiles (root : List (List Char)) (p : List Char) :
    Except String (List FsAction) :=
  fileOperation p [.readdir (joinSegs root p)]

/-- `readFile`. -/
def readFileOp (root : List (List Char)) (p : List Char) :
    Except String (List FsAction) :=
  fileOperation p [.readFile (joinSegs root p)]

/-- `downloadFile`. -/
def downloadFileOp (root : List (List Char)) (p : List Char) :
    Except String (List FsAction) :=
  fileOperation p [.readFile (joinSegs root p)]

/-- `writeFile`: ensure the parent directory, then write. -/
def writeFileOp (root : List (List Char)) (p : List Char) (content : String) :
    Except String (List FsAction) :=
  fileOperation p
    [.mkdirRec (joinSegs root p).dropLast, .writeFile (joinSegs root p) content]

/-- `uploadFile`: ensure the directory `root ⊕ p`, then write the uploaded
file under its original name inside it. -/
def uploadFileOp (root : List (List Char)) (p origName : List Char)
    (content : String) : Except String (List FsAction) :=
  fileOperation p
    [.mkdirRec (joinSegs root p),
     .writeFile ((root ++ splitSegs p ++ splitSegs origName).foldl normStep [])
       content]

/-- `createDirectory`. -/
def mkdirOp (root : List (List Char)) (p : List Char) :
    Except String (List FsAction) :=
  fileOperation p [.mkdirRec (joinSegs root p)]

/-- `deleteFile`: recursive removal for directories, unlink for files. -/
def deleteOp (root : List (List Char)) (p : List Char) (isDir : Bool) :
    Except String (List FsAction) :=
  fileOperation p
    [if isDir then .rmRec (joinSegs root p) else .unlink (joinSegs root p)]

end ServersService

namespace ModpacksService

/-- Number of occupied ports that are ≥ `p`; the termination measure of the
port scan. -/
def countGe (occupied : List Nat) (p : Nat) : Nat :=
  (occupied.filter (fun q => decide (p ≤ q))).length

theorem countGe_cons (a : Nat) (rest : List Nat) (p : Nat) :
    countGe (a :: rest) p =
      (if p ≤ a then 1 else 0) + countGe rest p := by
  by_cases h : p ≤ a
  · simp [countGe, List.filter_cons, h]
    omega
  · simp [countGe, List.filter_cons, h]

theorem countGe_succ_le (occupied : List Nat) (p : Nat) :
    countGe occupied (p + 1) ≤ countGe occupied p := by
  induction occupied with
  | nil => simp [countGe]
  | cons a rest ih =>
    rw [countGe_cons, countGe_cons]
    by_cases h1 : p + 1 ≤ a
    · have h2 : p ≤ a := by omega
      simp [h1, h2]
      omega
    · by_cases h2 : p ≤ a <;> simp [h1, h2] <;> omega

theorem countGe_succ_lt (occupied : List Nat) (p : Nat) (hp : p ∈ occupied) :
    countGe occupied (p + 1) < countGe occupied p := by
  induction occupied with
  | nil => cases hp
  | cons a rest ih =>
    rw [countGe_cons, countGe_cons]
    rcases List.mem_cons.mp hp with h | h
    · have h1 : ¬ (p + 1 ≤ a) := by omega
      have h2 : p ≤ a := by omega
      have h3 := countGe_succ_le rest p
      simp [h1, h2]
      omega
    · have h3 := ih h
      by_cases h1 : p + 1 ≤ a
      · have h2 : p ≤ a := by omega
        simp [h1, h2]
        omega
      · by_cases h2 : p ≤ a <;> simp [h1, h2] <;> omega

/-- `findAvailablePort`: scan upward from the requested port while the port
is occupied, return the first free one. -/
def findAvailablePort (occupied : List Nat) (requested : Nat) : Nat :=
  if h : requested ∈ occupied then findAvailablePort occupied (requested + 1)
  else requested
termination_by countGe occupied requested
decreasing_by exact countGe_succ_lt occupied requested h

/-- Outcome of downloading one mod (`downloadModFile` plus the write of its
buffer): success, or any thrown error. -/
inductive ModOutcome where
  | ok
  | fail
deriving Repr, DecidableEq

/-- One progress event as emitted to the gateway. -/
structure ProgressEvent where
  step : String
  progress : Nat
  message : String
  current : Nat
  total : Nat
deriving Repr, DecidableEq

/-- Running counters and the events emitted so far inside `downloadMods`. -/
structure ModDownloadAcc where
  downloadedMods : Nat
  failedMods : Nat
  events : List ProgressEvent
deriving Repr, DecidableEq

/-- The progress event a successful download emits once `done` mods have
completed: `70 + Math.floor(done / total * 20)` with current/total fields
(exact on the integer grid the code hits). -/
def modProgressEvent (done total : Nat) : ProgressEvent :=
  { step := "downloading-mods"
    progress := 70 + done * 20 / total
    message := "Downloading mods (" ++ toString done ++ "/" ++ toString total ++ ")..."
    current := done
    total := total }

/-- The per-mod body of `downloadMods`: a success bumps `downloadedMods` and
emits a progress event; a failure is caught and only bumps `failedMods`. -/
def modStep (total : Nat) (acc : ModDownloadAcc) (o : ModOutcome) : ModDownloadAcc :=
  match o with
  | .ok =>
    { downloadedMods := acc.downloadedMods + 1
      failedMods := acc.failedMods
      events := acc.events ++ [modProgressEvent (acc.downloadedMods + 1) total] }
  | .fail => { acc with failedMods := acc.failedMods + 1 }

/-- `downloadMods` over the completion order of the individual downloads:
fold the per-mod body over every outcome, then throw iff no mod succeeded. -/
def downloadMods (outcomes : List ModOutcome) : Except String ModDownloadAcc :=
  let acc := outcomes.foldl (modStep outcomes.length) ⟨0, 0, []⟩
  if acc.downloadedMods = 0 then
    .error "Failed to download any mods from the modpack"
  else .ok acc

/-- Number of successful outcomes. -/
def countOk : List ModOutcome → Nat
  | [] => 0
  | .ok :: r => countOk r + 1
  | .fail :: r => countOk r

/-- Number of failed outcomes. -/
def countFail : List ModOutcome → Nat
  | [] => 0
  | .ok :: r => countFail r
  | .fail :: r => countFail r + 1

/-- Terminal event of one provisioning session. -/
inductive SessionEnd where
  | complete
  | errored
deriving Repr, DecidableEq

/-- The tail of `performServerCreation`: when every step before the mod
download succeeded, the session completes iff `downloadMods` returns; any
throw is caught once at the top and converted into the `error` event. -/
def performServerCreationEnd (precedingOk : Bool) (outcomes : List ModOutcome) :
    SessionEnd :=
  if precedingOk then
    match downloadMods outcomes with
    | .ok _ => .complete
    | .error _ => .errored
  else .errored

end ModpacksService

namespace ServersGateway

/-- One event delivered by the console gateway. -/
inductive WsEvent where
  | backlog (clientId : String) (logs : List String)
  | logLine (clientId : String) (line : String)
  | statusEvt (clientId : String) (status : String)
  | dbStatusUpdate (serverId status : String)
deriving Repr, DecidableEq

/-- Gateway bookkeeping: `serverSubscriptions` maps a server id to the
subscribed socket ids. -/
structure GatewayState where
  serverSubscriptions : List (String × List String)
deriving Repr, DecidableEq

/-- `handleSubscribe`: on the first subscriber of a server id, register the
log and status callbacks; `subscribeToStatus` immediately replays a stored
`currentStatus` into the fresh callback, which broadcasts to the (still
empty) subscriber set and schedules a database status update.  Then the
client is added to the subscription set and receives the `logs` backlog
event built from `getLogs`. -/
def handleSubscribe (gw : GatewayState) (ag : AgentsService.AgentsState)
    (clientId serverId : String) : GatewayState × List WsEvent :=
  let firstSub := (lookupA gw.serverSubscriptions serverId).isNone
  let immEvents : List WsEvent :=
    if firstSub then
      match lookupA ag.currentStatus serverId with
      | some s => [.dbStatusUpdate serverId s]
      | none => []
    else []
  let subs0 := (lookupA gw.serverSubscriptions serverId).getD []
  let subs1 := if clientId ∈ subs0 then subs0 else subs0 ++ [clientId]
  ({ serverSubscriptions := setA gw.serverSubscriptions serverId subs1 },
    immEvents ++ [.backlog clientId (AgentsService.getLogs ag.logs serverId)])

end ServersGateway

/-!  Claim theorems. -/

/-- Claim C1 (amended): log-pattern state detection is stateless.  When the
supervisor's current status for a server is `RUNNING` and an ingested line
matches the starting patterns (and not the ready pattern, which is checked
first), `detectStatusFromLog` publishes `STARTING`: the server is regressed
from Running to Starting, there is no guard. -/
theorem detectStatus_regresses_running_to_starting
    (st : AgentsService.StatusState) (sid line : String)
    (_hrun : lookupA st.currentStatus sid = some "RUNNING")
    (hstart : AgentsService.startingRe line = true)
    (hdone : AgentsService.doneRe line = false) :
    lookupA (AgentsService.detectStatusFromLog st sid line).currentStatus sid =
      some "STARTING" := by
  simp only [AgentsService.detectStatusFromLog, hstart, hdone, Bool.false_eq_true,
    if_false, if_true, AgentsService.emitStatus]
  exact lookupA_setA_self st.currentStatus sid "STARTING"

/-- Claim C1, counterexample to the claim as stated: a server whose current
status is `RUNNING` processes the line
`[Server thread/INFO]: Starting minecraft server version 1.20.4` (which
matches the starting patterns) and the published state becomes `STARTING`,
not a state unequal to Starting. -/
theorem detectStatus_running_regression_counterexample :
    lookupA
        (AgentsService.StatusState.currentStatus
          (⟨[("srv1", "RUNNING")], []⟩ : AgentsService.StatusState)) "srv1" =
      some "RUNNING" ∧
    lookupA
        (AgentsService.detectStatusFromLog ⟨[("srv1", "RUNNING")], []⟩ "srv1"
          "[Server thread/INFO]: Starting minecraft server version 1.20.4").currentStatus
        "srv1" =
      some "STARTING" := by
  exact ⟨by decide, by decide⟩

/-- Claim C1, witness: the amended theorem applied at a concrete state and
line. -/
theorem detectStatus_regression_witness :
    lookupA
        (AgentsService.detectStatusFromLog ⟨[("w1", "RUNNING")], []⟩ "w1"
          "Starting minecraft server").currentStatus "w1" = some "STARTING" :=
  detectStatus_regresses_running_to_starting ⟨[("w1", "RUNNING")], []⟩ "w1"
    "Starting minecraft server" (by decide) (by decide) (by decide)

/-- Claim C2 (amended): when a supervised process exits with code `c`, the
supervisor publishes `STOPPED` iff `c = 0` and `EXITED` otherwise; the
registry mirror (`updateStatus` reached through the gateway's status
subscription) stores `STOPPED` for a zero exit code, but maps the published
`EXITED` to `ERROR` — the registry enum has no Exited member. -/
theorem exit_status_published_and_mirrored (c : Int) :
    AgentsService.exitStatusOf (some c) =
      (if c = 0 then "STOPPED" else "EXITED") ∧
    ServersService.registryAfterExit (some c) =
      (if c = 0 then "STOPPED" else "ERROR") := by
  by_cases h : c = 0 <;>
    simp [AgentsService.exitStatusOf, ServersService.registryAfterExit,
      ServersService.updateStatusStored, ServersService.mapStatus,
      ServersService.serverStatusToString, h]

/-- Claim C2, counterexample to the claim as stated: for exit code `1` the
supervisor publishes `EXITED`, but the state mirrored into the server
registry is `ERROR`, not Exited. -/
theorem exit_mirror_counterexample :
    AgentsService.exitStatusOf (some 1) = "EXITED" ∧
    ServersService.registryAfterExit (some 1) = "ERROR" ∧
    ("ERROR" : String) ≠ "EXITED" :=
  ⟨rfl, rfl, by decide⟩

/-- Claim C7 (amended): for a server with a live process entry, `stopServer`
writes `stop\n` to stdin immediately, and sends `SIGTERM` when the 30 s
timer fires before the process exits; the only signal it can ever send is
that single `SIGTERM` at 30 s — there is no follow-up kill signal. -/
theorem stopServer_trace (exitMs : Option Nat) :
    (AgentsService.stopServer true exitMs).head? =
      some (0, .writeStdin "stop\n") ∧
    (exitMs = none →
      (30000, AgentsService.StopAction.signal "SIGTERM") ∈
        AgentsService.stopServer true exitMs) ∧
    (∀ t n, (t, AgentsService.StopAction.signal n) ∈
        AgentsService.stopServer true exitMs → n = "SIGTERM" ∧ t = 30000) ∧
    AgentsService.stopServer false exitMs = [] := by
  refine ⟨?_, ?_, ?_, rfl⟩
  · cases exitMs with
    | none => rfl
    | some t => by_cases h : t ≤ 30000 <;> simp [AgentsService.stopServer, h]
  · intro he
    subst he
    simp [AgentsService.stopServer]
  · intro t n hmem
    cases exitMs with
    | none =>
      simp [AgentsService.stopServer] at hmem
      exact ⟨hmem.2, hmem.1⟩
    | some te =>
      by_cases h : te ≤ 30000 <;> simp [AgentsService.stopServer, h] at hmem
      exact ⟨hmem.2, hmem.1⟩

/-- Claim C7, counterexample to the claim as stated: for a process that
never exits on its own, the full action trace of `stopServer` is the stdin
write followed by a single `SIGTERM` at 30 s; no kill signal is ever sent
5 s (or ever) after the terminate signal. -/
theorem stopServer_no_sigkill_counterexample :
    AgentsService.stopServer true none =
      [(0, .writeStdin "stop\n"), (30000, .signal "SIGTERM")] ∧
    AgentsService.StopAction.signal "SIGKILL" ∉
      (AgentsService.stopServer true none).map Prod.snd :=
  ⟨rfl, by decide⟩

/-- Claim C7, witness: the amended theorem applied at a never-exiting
process. -/
theorem stopServer_trace_witness :
    (30000, AgentsService.StopAction.signal "SIGTERM") ∈
      AgentsService.stopServer true none :=
  (stopServer_trace none).2.1 rfl

/-- Claim C9 (confirmed): appending a line to the per-server log ring keeps
its size at most `MAX_LOG_LINES` (1000); below capacity the timestamped
entry is appended, and at capacity the oldest (front) entry is evicted to
make room for it. -/
theorem addLog_ring_bounded (logs : List String) (now line : String)
    (h : logs.length ≤ AgentsService.MAX_LOG_LINES) :
    (AgentsService.addLog logs now line).length ≤ AgentsService.MAX_LOG_LINES ∧
    (logs.length < AgentsService.MAX_LOG_LINES →
      AgentsService.addLog logs now line =
        logs ++ ["[" ++ now ++ "] " ++ line]) ∧
    (logs.length = AgentsService.MAX_LOG_LINES →
      AgentsService.addLog logs now line =
        logs.drop 1 ++ ["[" ++ now ++ "] " ++ line]) := by
  by_cases hlt : logs.length < AgentsService.MAX_LOG_LINES
  · have hc : ¬ (AgentsService.MAX_LOG_LINES < (logs ++ ["[" ++ now ++ "] " ++ line]).length) := by
      simp only [List.length_append, List.length_cons, List.length_nil]
      omega
    have hval : AgentsService.addLog logs now line =
        logs ++ ["[" ++ now ++ "] " ++ line] := by
      simp only [AgentsService.addLog]
      exact if_neg hc
    refine ⟨?_, fun _ => hval, fun heq => by omega⟩
    rw [hval]
    simp only [List.length_append, List.length_cons, List.length_nil]
    omega
  · have heq : logs.length = AgentsService.MAX_LOG_LINES := by omega
    have hc : AgentsService.MAX_LOG_LINES < (logs ++ ["[" ++ now ++ "] " ++ line]).length := by
      simp only [List.length_append, List.length_cons, List.length_nil]
      omega
    have hval : AgentsService.addLog logs now line =
        (logs ++ ["[" ++ now ++ "] " ++ line]).drop 1 := by
      simp only [AgentsService.addLog]
      exact if_pos hc
    cases logs with
    | nil => simp [AgentsService.MAX_LOG_LINES] at heq
    | cons a rest =>
      refine ⟨?_, fun hlt2 => absurd hlt2 hlt, fun _ => ?_⟩
      · rw [hval]
        simp only [List.length_cons] at heq
        simp only [List.length_drop, List.cons_append, List.length_cons,
          List.length_append, List.length_nil]
        omega
      · rw [hval]
        rfl

/-- Claim C9, witness: the ring-bound theorem applied at a one-line ring. -/
theorem addLog_ring_bounded_witness :
    (AgentsService.addLog ["x"] "t0" "y").length ≤ AgentsService.MAX_LOG_LINES :=
  (addLog_ring_bounded ["x"] "t0" "y" (by decide)).1

theorem countGe_pos_of_mem (occupied : List Nat) (p : Nat) (hp : p ∈ occupied) :
    0 < ModpacksService.countGe occupied p := by
  have hmem : p ∈ occupied.filter (fun q => decide (p ≤ q)) :=
    List.mem_filter.mpr ⟨hp, by simp⟩
  exact List.length_pos.mpr (List.ne_nil_of_mem hmem)

theorem findAvailablePort_spec_aux (occ : List Nat) :
    ∀ n r, ModpacksService.countGe occ r ≤ n →
      r ≤ ModpacksService.findAvailablePort occ r ∧
      ModpacksService.findAvailablePort occ r ∉ occ ∧
      ∀ q, r ≤ q → q < ModpacksService.findAvailablePort occ r → q ∈ occ := by
  intro n
  induction n with
  | zero =>
    intro r hr
    have hmem : r ∉ occ := by
      intro hm
      have := countGe_pos_of_mem occ r hm
      omega
    rw [ModpacksService.findAvailablePort, dif_neg hmem]
    exact ⟨le_refl r, hmem, fun q h1 h2 => absurd h2 (by omega)⟩
  | succ n ih =>
    intro r hr
    by_cases hm : r ∈ occ
    · have hlt := ModpacksService.countGe_succ_lt occ r hm
      obtain ⟨ih1, ih2, ih3⟩ := ih (r + 1) (by omega)
      rw [ModpacksService.findAvailablePort, dif_pos hm]
      refine ⟨by omega, ih2, fun q h1 h2 => ?_⟩
      rcases eq_or_lt_of_le h1 with h | h
      · exact h ▸ hm
      · exact ih3 q (by omega) h2
    · rw [ModpacksService.findAvailablePort, dif_neg hm]
      exact ⟨le_refl r, hm, fun q h1 h2 => absurd h2 (by omega)⟩

theorem findAvailablePort_eq (occ : List Nat) (r v : Nat)
    (h1 : r ≤ v) (h2 : v ∉ occ) (h3 : ∀ q, r ≤ q → q < v → q ∈ occ) :
    ModpacksService.findAvailablePort occ r = v := by
  obtain ⟨hs1, hs2, hs3⟩ :=
    findAvailablePort_spec_aux occ (ModpacksService.countGe occ r) r (le_refl _)
  rcases lt_trichotomy (ModpacksService.findAvailablePort occ r) v with h | h | h
  · exact absurd (h3 _ hs1 h) hs2
  · exact h
  · exact absurd (hs3 v h1 h) h2

/-- Claim C8 (confirmed): `findAvailablePort` returns the smallest port that
is at least the requested port and not reserved — the result is ≥ the
request, is free, and every port between the request and the result is
reserved; in particular with 25565 reserved the request 25565 yields 25566,
and with 25565–25570 reserved it yields 25571. -/
theorem findAvailablePort_smallest_free :
    (∀ (occ : List Nat) (r : Nat),
      r ≤ ModpacksService.findAvailablePort occ r ∧
      ModpacksService.findAvailablePort occ r ∉ occ ∧
      ∀ q, r ≤ q → q < ModpacksService.findAvailablePort occ r → q ∈ occ) ∧
    ModpacksService.findAvailablePort [25565] 25565 = 25566 ∧
    ModpacksService.findAvailablePort
      [25565, 25566, 25567, 25568, 25569, 25570] 25565 = 25571 := by
  refine ⟨fun occ r =>
    findAvailablePort_spec_aux occ (ModpacksService.countGe occ r) r (le_refl _),
    ?_, ?_⟩
  · refine findAvailablePort_eq _ _ _ (by omega) (by decide) ?_
    intro q hq1 hq2
    have : q = 25565 := by omega
    simp [this]
  · refine findAvailablePort_eq _ _ _ (by omega) (by decide) ?_
    intro q hq1 hq2
    simp only [List.mem_cons, List.not_mem_nil, or_false]
    omega

/-- Claim C8, witness: the spec applied at the reserved set `[25565]` with
request 25565 — the port between request and result is reserved. -/
theorem findAvailablePort_smallest_free_witness :
    (25565 : Nat) ∈ [25565] :=
  (findAvailablePort_smallest_free.1 [25565] 25565).2.2 25565 (le_refl _)
    (by rw [findAvailablePort_smallest_free.2.1]; omega)

theorem foldl_modStep_downloaded (total : Nat) :
    ∀ (outcomes : List ModpacksService.ModOutcome)
      (acc : ModpacksService.ModDownloadAcc),
      (outcomes.foldl (ModpacksService.modStep total) acc).downloadedMods =
        acc.downloadedMods + ModpacksService.countOk outcomes := by
  intro outcomes
  induction outcomes with
  | nil => intro acc; simp [ModpacksService.countOk]
  | cons o rest ih =>
    intro acc
    cases o with
    | ok =>
      simp only [List.foldl_cons, ih, ModpacksService.modStep,
        ModpacksService.countOk]
      omega
    | fail =>
      simp only [List.foldl_cons, ih, ModpacksService.modStep,
        ModpacksService.countOk]

theorem foldl_modStep_failed (total : Nat) :
    ∀ (outcomes : List ModpacksService.ModOutcome)
      (acc : ModpacksService.ModDownloadAcc),
      (outcomes.foldl (ModpacksService.modStep total) acc).failedMods =
        acc.failedMods + ModpacksService.countFail outcomes := by
  intro outcomes
  induction outcomes with
  | nil => intro acc; simp [ModpacksService.countFail]
  | cons o rest ih =>
    intro acc
    cases o with
    | ok =>
      simp only [List.foldl_cons, ih, ModpacksService.modStep,
        ModpacksService.countFail]
    | fail =>
      simp only [List.foldl_cons, ih, ModpacksService.modStep,
        ModpacksService.countFail]
      omega

/-- Claim C3 (confirmed): in the mod-download phase an individual failure is
caught and only counted (a returned accumulator reports exactly the number
of failed mods alongside the successful ones), and — when every preceding
step succeeded — the session reaches the `complete` event iff at least one
mod downloaded successfully; with zero successful downloads the caught
throw ends the session with the `error` event instead. -/
theorem session_completes_iff_some_mod_ok
    (outcomes : List ModpacksService.ModOutcome) :
    (ModpacksService.performServerCreationEnd true outcomes =
        ModpacksService.SessionEnd.complete ↔
      0 < ModpacksService.countOk outcomes) ∧
    (∀ r, ModpacksService.downloadMods outcomes = .ok r →
      r.downloadedMods = ModpacksService.countOk outcomes ∧
      r.failedMods = ModpacksService.countFail outcomes) ∧
    (ModpacksService.countOk outcomes = 0 →
      ModpacksService.performServerCreationEnd true outcomes =
        ModpacksService.SessionEnd.errored) := by
  have hd := foldl_modStep_downloaded outcomes.length outcomes ⟨0, 0, []⟩
  have hf := foldl_modStep_failed outcomes.length outcomes ⟨0, 0, []⟩
  simp only [Nat.zero_add] at hd hf
  by_cases h : ModpacksService.countOk outcomes = 0
  · have hzero :
        (outcomes.foldl (ModpacksService.modStep outcomes.length)
          ⟨0, 0, []⟩).downloadedMods = 0 := by rw [hd, h]
    constructor
    · simp [ModpacksService.performServerCreationEnd,
        ModpacksService.downloadMods, hzero, h]
    constructor
    · intro r hr
      simp [ModpacksService.downloadMods, hzero] at hr
    · intro _
      simp [ModpacksService.performServerCreationEnd,
        ModpacksService.downloadMods, hzero]
  · have hpos :
        ¬ (outcomes.foldl (ModpacksService.modStep outcomes.length)
          ⟨0, 0, []⟩).downloadedMods = 0 := by rw [hd]; omega
    constructor
    · simp only [ModpacksService.performServerCreationEnd,
        ModpacksService.downloadMods, hpos, if_true, if_false]
      constructor
      · intro _; omega
      · intro _; simp [hpos]
    constructor
    · intro r hr
      simp only [ModpacksService.downloadMods, hpos, if_false] at hr
      injection hr with hinj
      subst hinj
      exact ⟨hd, hf⟩
    · intro hc
      exact absurd hc h

/-- Claim C3, witness: a run with one failed and one successful mod reaches
`complete`; a run whose only mod fails ends with the `error` event. -/
theorem session_completes_witness :
    ModpacksService.performServerCreationEnd true
        [ModpacksService.ModOutcome.fail, ModpacksService.ModOutcome.ok] =
      ModpacksService.SessionEnd.complete ∧
    ModpacksService.performServerCreationEnd true
        [ModpacksService.ModOutcome.fail] =
      ModpacksService.SessionEnd.errored :=
  ⟨(session_completes_iff_some_mod_ok
      [ModpacksService.ModOutcome.fail, ModpacksService.ModOutcome.ok]).1.mpr
      (by decide),
   (session_completes_iff_some_mod_ok [ModpacksService.ModOutcome.fail]).2.2
      (by decide)⟩

theorem foldl_modStep_events (total : Nat) :
    ∀ (outcomes : List ModpacksService.ModOutcome)
      (acc : ModpacksService.ModDownloadAcc),
      (∀ e ∈ acc.events, e.step = "downloading-mods" ∧ e.total = total ∧
        e.progress = 70 + e.current * 20 / total ∧ 1 ≤ e.current) →
      ∀ e ∈ (outcomes.foldl (ModpacksService.modStep total) acc).events,
        e.step = "downloading-mods" ∧ e.total = total ∧
        e.progress = 70 + e.current * 20 / total ∧ 1 ≤ e.current := by
  intro outcomes
  induction outcomes with
  | nil => intro acc hacc; exact hacc
  | cons o rest ih =>
    intro acc hacc
    cases o with
    | ok =>
      refine ih _ ?_
      intro e he
      simp only [ModpacksService.modStep, List.mem_append,
        List.mem_singleton] at he
      rcases he with he | he
      · exact hacc e he
      · subst he
        refine ⟨rfl, rfl, rfl, ?_⟩
        show 1 ≤ acc.downloadedMods + 1
        omega
    | fail => exact ih _ hacc

/-- Claim C4 (amended): every progress event emitted inside the mod-download
phase of a successful `downloadMods` run carries
`percent = 70 + floor(current / total * 20)` together with the explicit
`current` (= number of completed downloads) and `total` fields — the base
percent is 70, not 60. -/
theorem mod_progress_formula (outcomes : List ModpacksService.ModOutcome)
    (r : ModpacksService.ModDownloadAcc)
    (hr : ModpacksService.downloadMods outcomes = .ok r) :
    ∀ e ∈ r.events, e.step = "downloading-mods" ∧ e.total = outcomes.length ∧
      e.progress = 70 + e.current * 20 / e.total ∧ 1 ≤ e.current := by
  have hfold := foldl_modStep_events outcomes.length outcomes ⟨0, 0, []⟩
    (by intro e he; cases he)
  simp only [ModpacksService.downloadMods] at hr
  by_cases h :
      (outcomes.foldl (ModpacksService.modStep outcomes.length)
        ⟨0, 0, []⟩).downloadedMods = 0
  · rw [if_pos h] at hr
    cases hr
  · rw [if_neg h] at hr
    cases hr
    intro e he
    obtain ⟨h1, h2, h3, h4⟩ := hfold e he
    exact ⟨h1, h2, by rw [← h2] at h3; exact h3, h4⟩

/-- Claim C4, counterexample to the claim as stated: a session with a single
mod that downloads successfully emits its progress event with percent 90
(= 70 + floor(1/1·20)), not 80 (= 60 + floor(1/1·20)) as the claim
requires. -/
theorem mod_progress_formula_counterexample :
    ModpacksService.downloadMods [ModpacksService.ModOutcome.ok] =
      .ok ⟨1, 0, [ModpacksService.modProgressEvent 1 1]⟩ ∧
    (ModpacksService.modProgressEvent 1 1).progress = 90 ∧
    60 + (ModpacksService.modProgressEvent 1 1).current * 20 /
        (ModpacksService.modProgressEvent 1 1).total = 80 ∧
    (90 : Nat) ≠ 80 :=
  ⟨rfl, rfl, rfl, by decide⟩

/-- Claim C4, witness: the amended formula theorem applied at the
single-successful-mod run and its emitted event. -/
theorem mod_progress_formula_witness :
    (ModpacksService.modProgressEvent 1 1).progress =
      70 + (ModpacksService.modProgressEvent 1 1).current * 20 /
        (ModpacksService.modProgressEvent 1 1).total :=
  (mod_progress_formula [ModpacksService.ModOutcome.ok]
      ⟨1, 0, [ModpacksService.modProgressEvent 1 1]⟩ rfl
      (ModpacksService.modProgressEvent 1 1) (by simp)).2.2.1

/-- Claim C6 (amended): `sendCommand` writes `command + "\n"` to the child's
stdin iff a live (non-killed) process entry exists for the server —
regardless of the published lifecycle state, so a server whose state is
Starting or Stopping accepts commands too; otherwise it fails with the
`Server is not running` error.  Whenever the write happens, the command is
appended to the server's log ring as a timestamped line whose text is
prefixed `> `, before any reply line from the server can be ingested. -/
theorem sendCommand_gate_and_echo (st : AgentsService.AgentsState)
    (now sid cmd : String) :
    (isOkE (AgentsService.sendCommand st now sid cmd) = true ↔
      ∃ p, lookupA st.processes sid = some p ∧ p.killed = false) ∧
    (∀ st2 w, AgentsService.sendCommand st now sid cmd = .ok (st2, w) →
      w = cmd ++ "\n" ∧
      AgentsService.getLogs st2.logs sid =
        AgentsService.addLog (AgentsService.getLogs st.logs sid) now
          ("> " ++ cmd)) ∧
    (∀ e, AgentsService.sendCommand st now sid cmd = .error e →
      e = "Server is not running") := by
  cases hp : lookupA st.processes sid with
  | none =>
    refine ⟨?_, ?_, ?_⟩
    · simp [AgentsService.sendCommand, hp, isOkE]
    · intro st2 w hw
      simp [AgentsService.sendCommand, hp] at hw
    · intro e he
      simp only [AgentsService.sendCommand, hp] at he
      injection he with he
      exact he.symm
  | some p =>
    cases hk : p.killed with
    | true =>
      refine ⟨?_, ?_, ?_⟩
      · simp [AgentsService.sendCommand, hp, hk, isOkE]
      · intro st2 w hw
        simp [AgentsService.sendCommand, hp, hk] at hw
      · intro e he
        simp only [AgentsService.sendCommand, hp, hk, if_true] at he
        injection he with he
        exact he.symm
    | false =>
      refine ⟨?_, ?_, ?_⟩
      · constructor
        · intro _
          exact ⟨p, rfl, hk⟩
        · intro _
          simp [AgentsService.sendCommand, hp, hk, isOkE]
      · intro st2 w hw
        simp only [AgentsService.sendCommand, hp, hk, if_false] at hw
        injection hw with hw
        injection hw with hw1 hw2
        subst hw1
        subst hw2
        refine ⟨rfl, ?_⟩
        simp only [AgentsService.addLogS, AgentsService.getLogs]
        rw [lookupA_setA_self]
        rfl
      · intro e he
        simp [AgentsService.sendCommand, hp, hk] at he

/-- Claim C6, counterexample to the claim as stated: a server whose
published state is `STARTING` (not Running) but whose process entry is
alive accepts `sendCommand` — the write happens although the state is not
Running, so the "iff state = Running" direction fails on the code. -/
theorem sendCommand_not_gated_on_running_counterexample :
    isOkE (AgentsService.sendCommand
        (⟨[("srv1", ⟨false⟩)], [("srv1", [])], [("srv1", "STARTING")]⟩ :
          AgentsService.AgentsState) "t0" "srv1" "list") = true ∧
    lookupA (AgentsService.AgentsState.currentStatus
        (⟨[("srv1", ⟨false⟩)], [("srv1", [])], [("srv1", "STARTING")]⟩ :
          AgentsService.AgentsState)) "srv1" = some "STARTING" ∧
    ("STARTING" : String) ≠ "RUNNING" :=
  ⟨rfl, rfl, by decide⟩

/-- Claim C6, witness: the amended gate theorem applied at a live process
entry, and the echo equation at the resulting write. -/
theorem sendCommand_gate_witness :
    isOkE (AgentsService.sendCommand
        (⟨[("a", ⟨false⟩)], [], []⟩ : AgentsService.AgentsState)
        "t0" "a" "say hi") = true ∧
    AgentsService.getLogs
        (AgentsService.addLogS
          (⟨[("a", ⟨false⟩)], [], []⟩ : AgentsService.AgentsState)
          "t0" "a" ("> " ++ "say hi")).logs "a" =
      AgentsService.addLog
        (AgentsService.getLogs
          (AgentsService.AgentsState.logs
            (⟨[("a", ⟨false⟩)], [], []⟩ : AgentsService.AgentsState)) "a")
        "t0" ("> " ++ "say hi") :=
  ⟨(sendCommand_gate_and_echo ⟨[("a", ⟨false⟩)], [], []⟩ "t0" "a" "say hi").1.mpr
      ⟨⟨false⟩, rfl, rfl⟩,
   ((sendCommand_gate_and_echo ⟨[("a", ⟨false⟩)], [], []⟩ "t0" "a" "say hi").2.1
      (AgentsService.addLogS ⟨[("a", ⟨false⟩)], [], []⟩ "t0" "a" ("> " ++ "say hi"))
      ("say hi" ++ "\n") rfl).2⟩

/-- Claim C10 (confirmed): subscribing to the console topic of a server id
with no supervisor entry, no stored log lines and no recorded status (one
that never started or does not exist) does not fail: the subscriber ends up
registered in the subscription set and the only event delivered is the
backlog event carrying the empty log list. -/
theorem subscribe_unknown_server (gw : ServersGateway.GatewayState)
    (ag : AgentsService.AgentsState) (clientId serverId : String)
    (_hproc : lookupA ag.processes serverId = none)
    (hlogs : lookupA ag.logs serverId = none)
    (hstatus : lookupA ag.currentStatus serverId = none) :
    (ServersGateway.handleSubscribe gw ag clientId serverId).2 =
      [ServersGateway.WsEvent.backlog clientId []] ∧
    clientId ∈
      (lookupA (ServersGateway.handleSubscribe gw ag clientId
        serverId).1.serverSubscriptions serverId).getD [] := by
  constructor
  · simp only [ServersGateway.handleSubscribe, hstatus,
      AgentsService.getLogs, hlogs, Option.getD_none]
    cases hsub : (lookupA gw.serverSubscriptions serverId).isNone <;> simp
  · simp only [ServersGateway.handleSubscribe, lookupA_setA_self,
      Option.getD_some]
    by_cases hin : clientId ∈ (lookupA gw.serverSubscriptions serverId).getD []
    · simp [hin]
    · simp [hin]

/-- Claim C10, witness: subscribing to a fresh gateway for an id the
supervisor has never seen. -/
theorem subscribe_unknown_server_witness :
    (ServersGateway.handleSubscribe ⟨[]⟩ ⟨[], [], []⟩ "sock1" "ghost").2 =
      [ServersGateway.WsEvent.backlog "sock1" []] ∧
    "sock1" ∈
      (lookupA (ServersGateway.handleSubscribe ⟨[]⟩ ⟨[], [], []⟩ "sock1"
        "ghost").1.serverSubscriptions "ghost").getD [] :=
  subscribe_unknown_server ⟨[]⟩ ⟨[], [], []⟩ "sock1" "ghost" rfl rfl rfl

theorem splitSegs_head_pre (l : List Char) :
    ∃ s0 ss, ServersService.splitSegs l = s0 :: ss ∧ hasPre s0 l = true := by
  induction l with
  | nil => exact ⟨[], [], rfl, rfl⟩
  | cons c rest ih =>
    by_cases hc : c = '/'
    · refine ⟨[], ServersService.splitSegs rest, ?_, rfl⟩
      simp [ServersService.splitSegs, hc]
    · obtain ⟨t0, ts, hsplit, hpre⟩ := ih
      refine ⟨c :: t0, ts, ?_, ?_⟩
      · simp [ServersService.splitSegs, hc, hsplit]
      · simp [hasPre, hpre]

theorem segs_no_dotdot (l : List Char)
    (h : hasSub ServersService.dotdot l = false) :
    ∀ s ∈ ServersService.splitSegs l, s ≠ ServersService.dotdot := by
  induction l with
  | nil =>
    intro s hs
    simp only [ServersService.splitSegs, List.mem_singleton] at hs
    subst hs
    simp [ServersService.dotdot]
  | cons c rest ih =>
    have hparts := Bool.or_eq_false_iff.mp (by simpa only [hasSub] using h)
    have h1 : hasPre ServersService.dotdot (c :: rest) = false := hparts.1
    have h2 : hasSub ServersService.dotdot rest = false := hparts.2
    intro s hs
    by_cases hc : c = '/'
    · simp only [ServersService.splitSegs, hc, if_true, List.mem_cons] at hs
      rcases hs with hs | hs
      · subst hs
        simp [ServersService.dotdot]
      · exact ih h2 s hs
    · obtain ⟨t0, ts, hsplit, hpre⟩ := splitSegs_head_pre rest
      have hform : ServersService.splitSegs (c :: rest) = (c :: t0) :: ts := by
        simp [ServersService.splitSegs, hc, hsplit]
      rw [hform] at hs
      rcases List.mem_cons.mp hs with hs | hs
      · subst hs
        intro hdd
        have hcd : c = '.' ∧ t0 = ['.'] := by
          simpa [ServersService.dotdot] using hdd
        obtain ⟨hcd1, hcd2⟩ := hcd
        subst hcd1
        subst hcd2
        simp only [ServersService.dotdot, hasPre, beq_self_eq_true,
          Bool.true_and] at h1
        rw [hpre] at h1
        cases h1
      · have hmem : s ∈ ServersService.splitSegs rest := by
          rw [hsplit]
          exact List.mem_cons_of_mem _ hs
        exact ih h2 s hmem

theorem normFold_no_pop (segs : List (List Char))
    (h : ∀ s ∈ segs, s ≠ ServersService.dotdot) :
    ∀ acc, ∃ rest, segs.foldl ServersService.normStep acc = acc ++ rest := by
  induction segs with
  | nil => intro acc; exact ⟨[], by simp⟩
  | cons s segs ih =>
    intro acc
    have hs : s ≠ ServersService.dotdot := h s (List.mem_cons_self s segs)
    have hrest : ∀ x ∈ segs, x ≠ ServersService.dotdot :=
      fun x hx => h x (List.mem_cons_of_mem _ hx)
    simp only [List.foldl_cons]
    by_cases h1 : s = [] ∨ s = ['.']
    · have hstep : ServersService.normStep acc s = acc := by
        simp [ServersService.normStep, h1]
      rw [hstep]
      exact ih hrest acc
    · have hstep : ServersService.normStep acc s = acc ++ [s] := by
        simp [ServersService.normStep, h1, hs]
      rw [hstep]
      obtain ⟨r, hr⟩ := ih hrest (acc ++ [s])
      exact ⟨[s] ++ r, by rw [hr, List.append_assoc]⟩

theorem normFold_clean (root : List (List Char))
    (h : ∀ s ∈ root, s ≠ [] ∧ s ≠ ['.'] ∧ s ≠ ServersService.dotdot) :
    ∀ acc, root.foldl ServersService.normStep acc = acc ++ root := by
  induction root with
  | nil => intro acc; simp
  | cons s root ih =>
    intro acc
    obtain ⟨h1, h2, h3⟩ := h s (List.mem_cons_self s root)
    have hrest : ∀ x ∈ root, x ≠ [] ∧ x ≠ ['.'] ∧ x ≠ ServersService.dotdot :=
      fun x hx => h x (List.mem_cons_of_mem _ hx)
    have hstep : ServersService.normStep acc s = acc ++ [s] := by
      simp [ServersService.normStep, h1, h2, h3]
    simp only [List.foldl_cons, hstep, ih hrest, List.append_assoc,
      List.singleton_append]

/-- Claim C5 (confirmed): every Safe Filesystem operation (list, read,
download, write, upload, mkdir, delete) runs `validatePath` first, so a
relative path containing `..` or beginning with `/` makes the operation
fail with `Invalid path` before any filesystem action is issued; and for
every path that passes validation, joining the canonical server root with
the path and normalizing yields a path that still has the root as a
prefix — it cannot escape the root. -/
theorem path_validation_and_containment :
    (∀ (root : List (List Char)) (p origName : List Char) (content : String)
        (isDir : Bool),
      ServersService.validatePathThrows p = true →
        ServersService.listFiles root p = .error "Invalid path" ∧
        ServersService.readFileOp root p = .error "Invalid path" ∧
        ServersService.downloadFileOp root p = .error "Invalid path" ∧
        ServersService.writeFileOp root p content = .error "Invalid path" ∧
        ServersService.uploadFileOp root p origName content =
          .error "Invalid path" ∧
        ServersService.mkdirOp root p = .error "Invalid path" ∧
        ServersService.deleteOp root p isDir = .error "Invalid path") ∧
    (∀ (root : List (List Char)) (p : List Char),
      (∀ s ∈ root, s ≠ [] ∧ s ≠ ['.'] ∧ s ≠ ServersService.dotdot) →
      ServersService.validatePathThrows p = false →
      ∃ rest, ServersService.joinSegs root p = root ++ rest) := by
  constructor
  · intro root p origName content isDir hv
    have hop : ∀ acts, ServersService.fileOperation p acts =
        .error "Invalid path" := by
      intro acts
      simp [ServersService.fileOperation, ServersService.validatePath, hv]
    exact ⟨hop _, hop _, hop _, hop _, hop _, hop _, hop _⟩
  · intro root p hclean hv
    have hnodd : hasSub ServersService.dotdot p = false :=
      (Bool.or_eq_false_iff.mp
        (by simpa only [ServersService.validatePathThrows] using hv)).1
    have hsegs := segs_no_dotdot p hnodd
    unfold ServersService.joinSegs
    rw [List.foldl_append, normFold_clean root hclean []]
    simp only [List.nil_append]
    exact normFold_no_pop _ hsegs root

/-- Claim C5, witness: the traversal path `../secret` is rejected by the
write operation before any action, and the accepted path `mods/a.jar`
joined to the root `/data` stays inside it. -/
theorem path_validation_witness :
    (ServersService.validatePathThrows ("../secret".data) = true ∧
     ServersService.writeFileOp [['d', 'a', 't', 'a']] ("../secret".data) "x" =
       .error "Invalid path") ∧
    (ServersService.validatePathThrows ("mods/a.jar".data) = false ∧
     ∃ rest,
       ServersService.joinSegs [['d', 'a', 't', 'a']] ("mods/a.jar".data) =
         [['d', 'a', 't', 'a']] ++ rest) :=
  ⟨⟨by decide,
    (path_validation_and_containment.1 [['d', 'a', 't', 'a']]
        ("../secret".data) [] "x" false (by decide)).2.2.2.1⟩,
   ⟨by decide,
    path_validation_and_containment.2 [['d', 'a', 't', 'a']]
      ("mods/a.jar".data) (by decide) (by decide)⟩⟩
